import Mathlib

/-
Verification of the chunking / JSON-recovery / aggregation / materialization
pipeline of `ollama_tool.py`.

Python strings are modelled as `List Char` (Python indexes by code point),
Python's unbounded integers as `Int`, and Python `None` together with JSON
`null` as `Json.null` (in the source, `try_parse_json` uses the very object
`None` both as the parsed value of `"null"` and as its failure sentinel, and
`main` tests `parsed is not None`; the two are therefore one value there).
Loops are given an explicit fuel argument: a result of `none` for every fuel
bound models a Python loop that never terminates.
-/

/-- JSON values as produced by Python's `json.loads`: `None`, booleans,
numbers (the claims only involve integers; see `json_loads`), strings,
lists and dicts (modelled as association lists in insertion order, the
order Python dicts preserve). -/
inductive Json where
  | null : Json
  | bool : Bool → Json
  | num : Int → Json
  | str : String → Json
  | arr : List Json → Json
  | obj : List (String × Json) → Json

/-- Clamp one Python slice endpoint: a negative index counts from the end
(floored at 0), a non-negative one is capped at the length. -/
def pyIndexClamp (n : Nat) (i : Int) : Nat :=
  if i < 0 then ((n : Int) + i).toNat else min i.toNat n

/-- Python's `s[a:b]` on a string of code points, with full negative-index
and clamping semantics. -/
def pySlice (cs : List Char) (a b : Int) : List Char :=
  (cs.drop (pyIndexClamp cs.length a)).take (pyIndexClamp cs.length b - pyIndexClamp cs.length a)

/-- The `while start < len(text)` loop of `chunk_text` (src lines 74-79):
each pass emits `text[start:end]` for `end = min(start + chunk_size, len(text))`,
sets `start = end - overlap`, and breaks when `start >= len(text)`.
`fuel` bounds the number of iterations; `none` means the bound was hit. -/
def chunkLoop (text : List Char) (chunk_size overlap : Int) :
    Nat → Int → List (List Char) → Option (List (List Char))
  | 0, _, _ => none
  | fuel + 1, start, chunks =>
    if start < (text.length : Int) then
      if (text.length : Int) ≤ min (start + chunk_size) (text.length : Int) - overlap then
        some (chunks ++ [pySlice text start (min (start + chunk_size) (text.length : Int))])
      else
        chunkLoop text chunk_size overlap fuel
          (min (start + chunk_size) (text.length : Int) - overlap)
          (chunks ++ [pySlice text start (min (start + chunk_size) (text.length : Int))])
    else some chunks

/-- `chunk_text` (src lines 70-80): run the loop from `start = 0` with an
empty accumulator and return `chunks if chunks else [text]`. -/
def chunk_text (text : List Char) (chunk_size overlap : Int) (fuel : Nat) :
    Option (List (List Char)) :=
  match chunkLoop text chunk_size overlap fuel 0 [] with
  | none => none
  | some [] => some [text]
  | some cs => some cs

/-- `chunk_text` diverges on the given arguments: no iteration bound ever
suffices, i.e. the Python loop never terminates. -/
def chunkDiverges (text : List Char) (chunk_size overlap : Int) : Prop :=
  ∀ fuel, chunk_text text chunk_size overlap fuel = none

theorem chunkLoop_eq_none (text : List Char) (chunk_size overlap : Int)
    (hov : 1 ≤ overlap) :
    ∀ (fuel : Nat) (start : Int) (chunks : List (List Char)),
      start < (text.length : Int) →
      chunkLoop text chunk_size overlap fuel start chunks = none := by
  intro fuel
  induction fuel with
  | zero => intro start chunks _; rfl
  | succ f ih =>
    intro start chunks h
    unfold chunkLoop
    rw [if_pos h]
    have he : min (start + chunk_size) (text.length : Int) ≤ (text.length : Int) :=
      min_le_right _ _
    rw [if_neg (by omega)]
    exact ih _ _ (by omega)

/-- For every non-empty text and every overlap of at least one character,
the chunker loops forever: after the window that reaches the end of the
text, the cursor is reset to `end - overlap < len(text)`, so the break
test `start >= len(text)` never fires. -/
theorem chunk_text_diverges (text : List Char) (chunk_size overlap : Int)
    (hov : 1 ≤ overlap) (hne : text ≠ []) :
    chunkDiverges text chunk_size overlap := by
  intro fuel
  unfold chunk_text
  rw [chunkLoop_eq_none text chunk_size overlap hov fuel 0 []
    (by exact_mod_cast List.length_pos.mpr hne)]

/-- Whitespace skipping of the JSON scanner (space, tab, newline, return). -/
def skipWs : List Char → List Char
  | [] => []
  | c :: cs => if c = ' ' ∨ c = '\t' ∨ c = '\n' ∨ c = '\r' then skipWs cs else c :: cs

/-- One JSON string-escape character. -/
def unescape (c : Char) : Option Char :=
  if c = '"' then some '"'
  else if c = '\\' then some '\\'
  else if c = '/' then some '/'
  else if c = 'b' then some (Char.ofNat 8)
  else if c = 'f' then some (Char.ofNat 12)
  else if c = 'n' then some '\n'
  else if c = 'r' then some '\r'
  else if c = 't' then some '\t'
  else none

/-- Body of a JSON string after the opening quote: collect characters up to
the closing quote, rejecting raw control characters, resolving the simple
escapes (the `\u` escape is outside the modelled subset). -/
def parseStringBody : List Char → List Char → Option (String × List Char)
  | [], _ => none
  | c :: cs, acc =>
    if c = '"' then some (String.mk acc.reverse, cs)
    else if c = '\\' then
      match cs with
      | [] => none
      | e :: cs2 =>
        match unescape e with
        | some ch => parseStringBody cs2 (ch :: acc)
        | none => none
    else if c.toNat < 32 then none
    else parseStringBody cs (c :: acc)

def isJsonDigit (c : Char) : Bool := '0' ≤ c ∧ c ≤ '9'

/-- Split off a maximal run of decimal digits. -/
def spanDigits : List Char → List Char × List Char
  | [] => ([], [])
  | c :: cs =>
    if isJsonDigit c then
      match spanDigits cs with
      | (ds, rest) => (c :: ds, rest)
    else ([], c :: cs)

def natOfDigits (ds : List Char) : Nat :=
  ds.foldl (fun acc c => 10 * acc + (c.toNat - 48)) 0

/-- A JSON integer literal: optional minus sign, digits without a redundant
leading zero, not followed by a fraction or exponent (floating-point
numbers are outside the modelled subset: such input is treated as
unparseable here and appears in no theorem). -/
def parseIntLit (cs : List Char) : Option (Json × List Char) :=
  match cs with
  | '-' :: cs1 =>
    match parseIntLit cs1 with
    | some (.num n, rest) => some (.num (-n), rest)
    | _ => none
  | _ =>
    match spanDigits cs with
    | ([], _) => none
    | (d :: ds, rest) =>
      if d = '0' ∧ ds ≠ [] then none
      else
        match rest with
        | c :: _ =>
          if c = '.' ∨ c = 'e' ∨ c = 'E' then none
          else some (.num (natOfDigits (d :: ds)), rest)
        | [] => some (.num (natOfDigits (d :: ds)), rest)

/-- Python-dict insertion: an existing key keeps its position and takes the
new value (as for duplicate keys in `json.loads`); a new key is appended. -/
def dictInsert (kvs : List (String × Json)) (k : String) (v : Json) :
    List (String × Json) :=
  if k ∈ kvs.map Prod.fst then
    kvs.map (fun kv => if kv.1 = k then (k, v) else kv)
  else kvs ++ [(k, v)]

/-- Parser mode: a single value, the tail of an array, or the tail of an
object (with the elements or members read so far). -/
inductive PMode where
  | value : PMode
  | elems : List Json → PMode
  | members : List (String × Json) → PMode

/-- Recursive-descent JSON reader used by `json_loads`, with an explicit
fuel bound (any fuel beyond the nesting depth gives the same result). -/
def parseJ (fuel : Nat) (mode : PMode) (cs : List Char) :
    Option (Json × List Char) :=
  match fuel with
  | 0 => none
  | f + 1 =>
    match mode with
    | .value =>
      match skipWs cs with
      | [] => none
      | c :: rest =>
        if c = 'n' then
          match rest with
          | 'u' :: 'l' :: 'l' :: r => some (.null, r)
          | _ => none
        else if c = 't' then
          match rest with
          | 'r' :: 'u' :: 'e' :: r => some (.bool true, r)
          | _ => none
        else if c = 'f' then
          match rest with
          | 'a' :: 'l' :: 's' :: 'e' :: r => some (.bool false, r)
          | _ => none
        else if c = '"' then
          match parseStringBody rest [] with
          | some (s, r) => some (.str s, r)
          | none => none
        else if c = '[' then
          match skipWs rest with
          | ']' :: r => some (.arr [], r)
          | r => parseJ f (.elems []) r
        else if c = '\x7b' then
          match skipWs rest with
          | '\x7d' :: r => some (.obj [], r)
          | r => parseJ f (.members []) r
        else if c = '-' ∨ isJsonDigit c then parseIntLit (c :: rest)
        else none
    | .elems acc =>
      match parseJ f .value cs with
      | none => none
      | some (v, rest) =>
        match skipWs rest with
        | ',' :: r => parseJ f (.elems (acc ++ [v])) r
        | ']' :: r => some (.arr (acc ++ [v]), r)
        | _ => none
    | .members acc =>
      match skipWs cs with
      | '"' :: rest =>
        match parseStringBody rest [] with
        | none => none
        | some (k, r1) =>
          match skipWs r1 with
          | ':' :: r2 =>
            match parseJ f .value r2 with
            | none => none
            | some (v, r3) =>
              match skipWs r3 with
              | ',' :: r4 => parseJ f (.members (dictInsert acc k v)) r4
              | '\x7d' :: r4 => some (.obj (dictInsert acc k v), r4)
              | _ => none
          | _ => none
      | _ => none

/-- Modelled from the spec: Python's `json.loads` (the external `json`
library, not repository code), restricted to JSON values without
floating-point numbers and without `\u` escapes; `none` models a raised
`JSONDecodeError`. A whole-input parse: one value, then only trailing
whitespace. -/
def json_loads (s : List Char) : Option Json :=
  match parseJ (s.length + 1) .value s with
  | some (v, rest) => if skipWs rest = [] then some v else none
  | none => none

/-- First index of a character, as Python's `str.index` (which raises,
modelled as `none`, when the character is absent). -/
def idxOfChar : List Char → Char → Option Nat
  | [], _ => none
  | x :: xs, c => if x = c then some 0 else (idxOfChar xs c).map (· + 1)

/-- Last index of a character, as Python's `str.rindex`. -/
def rIdxOfChar (cs : List Char) (c : Char) : Option Nat :=
  (idxOfChar cs.reverse c).map (fun i => cs.length - 1 - i)

/-- One bracket-slicing fallback of `try_parse_json` (src lines 108-111 and
113-116): locate the first `o` and the last `c`; if both exist, parse the
inclusive slice between them; any failure (either index missing, or the
slice not parsing) yields `none` and falls through to the next attempt. -/
def sliceAttempt (loads : List Char → Option Json) (o c : Char)
    (s : List Char) : Option Json :=
  match idxOfChar s o, rIdxOfChar s c with
  | some a, some b => loads (pySlice s (a : Int) ((b : Int) + 1))
  | _, _ => none

/-- `try_parse_json` (src lines 104-118) over an arbitrary whole-input
parser `loads`: parse the whole reply; on failure try the first-`\x7b` /
last-`\x7d` inclusive slice, then the first-`[` / last-`]` slice; if all
fail return `None` (`Json.null`). -/
def tryParseWith (loads : List Char → Option Json) (s : List Char) : Json :=
  match loads s with
  | some v => v
  | none =>
    match sliceAttempt loads '\x7b' '\x7d' s with
    | some v => v
    | none =>
      match sliceAttempt loads '[' ']' s with
      | some v => v
      | none => Json.null

/-- `try_parse_json` as called by `main`: the attempt chain instantiated
with the model of `json.loads`. -/
def try_parse_json (s : List Char) : Json := tryParseWith json_loads s

/-- One step of the accumulation in `main` (src lines 179-184): skip `None`,
extend by a list's elements, append a dict as one record, silently skip
any other value. -/
def aggStep (acc : List Json) (parsed : Json) : List Json :=
  match parsed with
  | .null => acc
  | .arr xs => acc ++ xs
  | .obj kvs => acc ++ [.obj kvs]
  | _ => acc

/-- The aggregation of `main`'s chunk loop: fold the per-chunk parsed
values, in chunk order, into the `all_parsed` record list. -/
def aggregate (vals : List Json) : List Json := vals.foldl aggStep []

/-- A value that is neither a JSON array nor a JSON object (so neither a
Python `list` nor a `dict` after parsing). -/
def isScalarB (v : Json) : Bool :=
  match v with
  | .arr _ => false
  | .obj _ => false
  | _ => true

def isObjB (v : Json) : Bool :=
  match v with
  | .obj _ => true
  | _ => false

/-- Append a column name unless it is already present. -/
def insertKey (acc : List String) (k : String) : List String :=
  if k ∈ acc then acc else acc ++ [k]

/-- The keys of a dict record (empty for a non-dict). -/
def keysOf (r : Json) : List String :=
  match r with
  | .obj kvs => kvs.map Prod.fst
  | _ => []

def insertKeys (acc : List String) (r : Json) : List String :=
  (keysOf r).foldl insertKey acc

/-- Modelled from the spec: the column set `pandas.DataFrame` derives from a
list of row dicts (the `pandas` library is external to the repository) —
the union of all keys, in first-seen order. -/
def tableColumns (records : List Json) : List String :=
  records.foldl insertKeys []

/-- Python-dict key lookup on an association list (keys are unique there). -/
def assocLookup (k : String) : List (String × Json) → Option Json
  | [] => none
  | kv :: rest => if kv.1 = k then some kv.2 else assocLookup k rest

/-- The cell a record contributes under a column: its value at that key, or
`none` — an empty cell in the written file — when the key is missing. -/
def cellOf (r : Json) (k : String) : Option Json :=
  match r with
  | .obj kvs => assocLookup k kvs
  | _ => none

def rowOf (cols : List String) (r : Json) : List (Option Json) :=
  cols.map (cellOf r)

/-- Modelled from the spec: `pandas.DataFrame` on a list of row dicts — one
row per record, the first-seen union of keys as columns, missing keys as
empty cells, no error. -/
def dfOfRecords (records : List Json) :
    List String × List (List (Option Json)) :=
  (tableColumns records, records.map (rowOf (tableColumns records)))

/-- The `all(isinstance(v, list) for v in output_obj.values())` test of
src line 125. -/
def allValuesLists (kvs : List (String × Json)) : Bool :=
  kvs.all fun kv =>
    match kv.2 with
    | .arr _ => true
    | _ => false

/-- Modelled from the spec: `pandas.DataFrame` on a dict of column lists —
each key is a column directly, rows are read off index-wise. -/
def dfOfColumns (kvs : List (String × Json)) :
    List String × List (List (Option Json)) :=
  (kvs.map Prod.fst,
   (List.range (kvs.foldl (fun m kv =>
      match kv.2 with
      | .arr xs => max m xs.length
      | _ => m) 0)).map fun i =>
        kvs.map fun kv =>
          match kv.2 with
          | .arr xs => xs.get? i
          | _ => none)

/-- Outcome of `save_structured` (src lines 121-136): a table written as
CSV or as a spreadsheet, or the `RuntimeError` raised when the value is
neither a list nor a dict. -/
inductive SaveOutcome where
  | csv : List String → List (List (Option Json)) → SaveOutcome
  | excel : List String → List (List (Option Json)) → SaveOutcome
  | convError : SaveOutcome

/-- Lowercasing of a Python string by `str.lower()` (the extensions the
code compares against are ASCII, where `Char.toLower` agrees with it). -/
def str_lower (cs : List Char) : List Char := cs.map Char.toLower

/-- The final path component, as `pathlib.PurePath.name`: the part after
the last `/`, ignoring trailing slashes. -/
def pathName (p : List Char) : List Char :=
  ((p.reverse.dropWhile (· = '/')).takeWhile (· ≠ '/')).reverse

/-- `pathlib.PurePath.suffix`: from the name's last dot onward, provided
that dot is neither the first nor the last character of the name. -/
def pySuffix (p : List Char) : List Char :=
  match rIdxOfChar (pathName p) '.' with
  | some i =>
    if 0 < i ∧ i < (pathName p).length - 1 then (pathName p).drop i else []
  | none => []

/-- The `out_path.suffix.lower() in [".xlsx", ".xls"]` test of src
line 133, selecting the spreadsheet writer over the CSV writer. -/
def excel_output (out_path : List Char) : Bool :=
  if str_lower (pySuffix out_path) = String.toList ".xlsx" then true
  else if str_lower (pySuffix out_path) = String.toList ".xls" then true
  else false

/-- `save_structured` (src lines 121-136): a list becomes a row-record
frame; a dict whose values are all lists becomes a columnar frame, any
other dict a single-row frame; anything else raises; the extension of the
output path then picks spreadsheet or CSV output. -/
def save_structured (output_obj : Json) (out_path : List Char) : SaveOutcome :=
  match output_obj with
  | .arr records =>
    if excel_output out_path then .excel (dfOfRecords records).1 (dfOfRecords records).2
    else .csv (dfOfRecords records).1 (dfOfRecords records).2
  | .obj kvs =>
    if allValuesLists kvs then
      if excel_output out_path then .excel (dfOfColumns kvs).1 (dfOfColumns kvs).2
      else .csv (dfOfColumns kvs).1 (dfOfColumns kvs).2
    else
      if excel_output out_path then .excel (dfOfRecords [.obj kvs]).1 (dfOfRecords [.obj kvs]).2
      else .csv (dfOfRecords [.obj kvs]).1 (dfOfRecords [.obj kvs]).2
  | _ => .convError

/-- Outcome of the tail of `main` (src lines 186-191): either the saved
table with the printed record count, or the zero-records warning. -/
inductive MainOutcome where
  | done : SaveOutcome → Nat → MainOutcome
  | warning : MainOutcome

/-- The `if all_parsed:` branch closing `main`: a non-empty accumulator is
materialized and its length reported; an empty one only prints a warning. -/
def main_finish (all_parsed : List Json) (out_path : List Char) : MainOutcome :=
  match all_parsed with
  | [] => .warning
  | _ => .done (save_structured (Json.arr all_parsed) out_path) all_parsed.length

/-- File-type dispatch of `extract_text` (src lines 56-67) on the
lowercased suffix of the input path. -/
inductive SourceKind where
  | pdf : SourceKind
  | docx : SourceKind
  | doc : SourceKind
  | unsupported : SourceKind
deriving DecidableEq

def extract_text_kind (file_path : List Char) : SourceKind :=
  if str_lower (pySuffix file_path) = String.toList ".pdf" then .pdf
  else if str_lower (pySuffix file_path) = String.toList ".docx" then .docx
  else if str_lower (pySuffix file_path) = String.toList ".doc" then .doc
  else .unsupported

/-- C1: refuted — `chunk(T, size, overlap)` does not return a chunk
sequence reconstructing `T` for all `0 <= overlap < size`: already at
`T = "ab"`, `size = 2`, `overlap = 1` the loop never terminates, because
the cursor is reset to `end - overlap < len(T)` after the final window
and the break test `start >= len(T)` can never fire. -/
theorem chunk_text_reconstruction_refuted :
    chunkDiverges (String.toList "ab") 2 1 :=
  chunk_text_diverges _ 2 1 (by norm_num) (by decide)

/-- C2: refuted — the chunker does not terminate once an emitted window
reaches the end of the text: at `text = "abcd"`, `size = 3`, `overlap = 1`
(`0 <= overlap < size`) the loop keeps re-emitting the final window from
the same cursor position for ever. -/
theorem chunk_text_termination_refuted :
    chunkDiverges (String.toList "abcd") 3 1 :=
  chunk_text_diverges _ 3 1 (by norm_num) (by decide)

/-- C3: refuted — `chunk_text` performs no `overlap >= size` validation at
all: with `size = overlap = 1` it raises no configuration error but loops
for ever on the non-empty text `"a"`, and on the empty text it returns
`[""]` normally even for `overlap = 2 > size = 1`. -/
theorem chunk_text_overlap_validation_refuted :
    chunkDiverges (String.toList "a") 1 1 ∧ chunk_text [] 1 2 1 = some [[]] :=
  ⟨chunk_text_diverges _ 1 1 (by norm_num) (by decide), rfl⟩

/-- C8: partly refuted — for the empty text the chunker does return exactly
one chunk holding the empty string, but for a non-empty text of length at
most `size` (here `"a"` with `size = 5`, `overlap = 1`) it never returns:
the single emitted window is followed by a cursor reset below the text
length, so the loop repeats for ever instead of producing `["a"]`. -/
theorem chunk_text_single_chunk_refuted :
    chunkDiverges (String.toList "a") 5 1 ∧ chunk_text [] 5 1 1 = some [[]] :=
  ⟨chunk_text_diverges _ 5 1 (by norm_num) (by decide), rfl⟩

/-- C5: `try_parse_json` tries, in strict priority order with the first
success winning: the whole string; the inclusive slice from the first
`\x7b` to the last `\x7d`; the inclusive slice from the first `[` to the
last `]`; and otherwise returns `None` — in particular a string with no
parseable JSON anywhere yields `None`. -/
theorem try_parse_json_priority (loads : List Char → Option Json) (s : List Char) :
    (∀ v, loads s = some v → tryParseWith loads s = v)
    ∧ (loads s = none → ∀ v,
        sliceAttempt loads '\x7b' '\x7d' s = some v → tryParseWith loads s = v)
    ∧ (loads s = none → sliceAttempt loads '\x7b' '\x7d' s = none → ∀ v,
        sliceAttempt loads '[' ']' s = some v → tryParseWith loads s = v)
    ∧ (loads s = none → sliceAttempt loads '\x7b' '\x7d' s = none →
        sliceAttempt loads '[' ']' s = none → tryParseWith loads s = Json.null)
    ∧ try_parse_json (String.toList "not json at all") = Json.null := by
  refine ⟨?_, ?_, ?_, ?_, rfl⟩
  · intro v h; unfold tryParseWith; rw [h]
  · intro h1 v h2; unfold tryParseWith; rw [h1, h2]
  · intro h1 h2 v h3; unfold tryParseWith; rw [h1, h2, h3]
  · intro h1 h2 h3; unfold tryParseWith; rw [h1, h2, h3]

/-- C5 witness: on the reply `Sure! Here is the data: \x7b"a":1\x7d Hope that
helps` the whole-string parse fails and the brace-slice fallback recovers
the object, so `try_parse_json` returns it. -/
theorem try_parse_json_priority_witness :
    json_loads (String.toList "Sure! Here is the data: \x7b\"a\":1\x7d Hope that helps") = none
    ∧ try_parse_json (String.toList "Sure! Here is the data: \x7b\"a\":1\x7d Hope that helps")
      = Json.obj [("a", Json.num 1)] := by
  have h1 : json_loads
      (String.toList "Sure! Here is the data: \x7b\"a\":1\x7d Hope that helps") = none := rfl
  have h2 : sliceAttempt json_loads '\x7b' '\x7d'
      (String.toList "Sure! Here is the data: \x7b\"a\":1\x7d Hope that helps")
      = some (Json.obj [("a", Json.num 1)]) := rfl
  exact ⟨h1, (try_parse_json_priority json_loads _).2.1 h1 (Json.obj [("a", Json.num 1)]) h2⟩

/-- C6: the aggregation appends each element of a parsed list as one
record, appends a parsed dict as a single record, and skips `None` without
error, preserving chunk order and within-chunk order with no
deduplication; the spec's example evaluates as stated. -/
theorem aggregate_order_and_shape :
    (∀ pre xs, aggregate (pre ++ [Json.arr xs]) = aggregate pre ++ xs)
    ∧ (∀ pre kvs, aggregate (pre ++ [Json.obj kvs]) = aggregate pre ++ [Json.obj kvs])
    ∧ (∀ pre, aggregate (pre ++ [Json.null]) = aggregate pre)
    ∧ aggregate [Json.arr [Json.obj [("a", Json.num 1)], Json.obj [("a", Json.num 2)]],
        Json.null, Json.obj [("b", Json.num 3)]]
      = [Json.obj [("a", Json.num 1)], Json.obj [("a", Json.num 2)],
         Json.obj [("b", Json.num 3)]] := by
  refine ⟨?_, ?_, ?_, rfl⟩
  · intro pre xs; unfold aggregate; rw [List.foldl_append]; rfl
  · intro pre kvs; unfold aggregate; rw [List.foldl_append]; rfl
  · intro pre; unfold aggregate; rw [List.foldl_append]; rfl

theorem aggStep_scalar (acc : List Json) (v : Json) (h : isScalarB v = true) :
    aggStep acc v = acc := by
  cases v <;> first | rfl | simp [isScalarB] at h

/-- C9: recovery can return a JSON value that is neither a list nor a dict
(`try_parse_json "5"` is the number 5, not `None`), and aggregation drops
every such scalar silently — the record list is exactly the one obtained
had that chunk returned `None`. -/
theorem scalar_recovery_dropped :
    try_parse_json (String.toList "5") = Json.num 5
    ∧ ∀ pre v post, isScalarB v = true →
        aggregate (pre ++ v :: post) = aggregate (pre ++ Json.null :: post) := by
  refine ⟨rfl, ?_⟩
  intro pre v post h
  unfold aggregate
  rw [List.foldl_append, List.foldl_append, List.foldl_cons, List.foldl_cons,
    aggStep_scalar _ v h]
  rfl

/-- C9 witness: the scalar 5 recovered from a chunk contributes no record,
exactly as a `None` result would. -/
theorem scalar_recovery_dropped_witness :
    isScalarB (Json.num 5) = true
    ∧ aggregate [Json.obj [("a", Json.num 1)], Json.num 5]
      = aggregate [Json.obj [("a", Json.num 1)], Json.null] :=
  ⟨rfl, scalar_recovery_dropped.2 [Json.obj [("a", Json.num 1)]] (Json.num 5) [] rfl⟩

theorem mem_foldl_insertKey (c : String) (ks : List String) :
    ∀ acc : List String, c ∈ ks.foldl insertKey acc ↔ c ∈ acc ∨ c ∈ ks := by
  induction ks with
  | nil => intro acc; simp
  | cons k ks ih =>
    intro acc
    rw [List.foldl_cons, ih (insertKey acc k)]
    unfold insertKey
    by_cases hk : k ∈ acc
    · rw [if_pos hk]
      simp only [List.mem_cons]
      constructor
      · rintro (h | h)
        · exact Or.inl h
        · exact Or.inr (Or.inr h)
      · rintro (h | h | h)
        · exact Or.inl h
        · exact Or.inl (h ▸ hk)
        · exact Or.inr h
    · rw [if_neg hk]
      simp only [List.mem_append, List.mem_singleton, List.mem_cons]
      tauto

theorem mem_foldl_insertKeys (c : String) (rs : List Json) :
    ∀ acc : List String,
      c ∈ rs.foldl insertKeys acc ↔ c ∈ acc ∨ ∃ r ∈ rs, c ∈ keysOf r := by
  induction rs with
  | nil => intro acc; simp
  | cons r rs ih =>
    intro acc
    rw [List.foldl_cons, ih (insertKeys acc r)]
    unfold insertKeys
    rw [mem_foldl_insertKey]
    have hc : (∃ x ∈ r :: rs, c ∈ keysOf x) ↔ c ∈ keysOf r ∨ ∃ x ∈ rs, c ∈ keysOf x := by
      simp
    rw [hc]
    tauto

/-- The derived column set holds exactly the keys appearing in some record. -/
theorem mem_tableColumns (c : String) (rs : List Json) :
    c ∈ tableColumns rs ↔ ∃ r ∈ rs, c ∈ keysOf r := by
  unfold tableColumns
  rw [mem_foldl_insertKeys]
  simp

theorem nodup_insertKey (acc : List String) (k : String) (h : acc.Nodup) :
    (insertKey acc k).Nodup := by
  unfold insertKey
  by_cases hk : k ∈ acc
  · rwa [if_pos hk]
  · rw [if_neg hk, List.nodup_append]
    refine ⟨h, by simp, ?_⟩
    intro a ha hb
    simp only [List.mem_singleton] at hb
    exact hk (hb ▸ ha)

theorem nodup_foldl_insertKey (ks : List String) :
    ∀ acc : List String, acc.Nodup → (ks.foldl insertKey acc).Nodup := by
  induction ks with
  | nil => intro acc h; exact h
  | cons k ks ih =>
    intro acc h
    rw [List.foldl_cons]
    exact ih _ (nodup_insertKey acc k h)

theorem nodup_foldl_insertKeys (rs : List Json) :
    ∀ acc : List String, acc.Nodup → (rs.foldl insertKeys acc).Nodup := by
  induction rs with
  | nil => intro acc h; exact h
  | cons r rs ih =>
    intro acc h
    rw [List.foldl_cons]
    exact ih _ (nodup_foldl_insertKey _ acc h)

theorem nodup_tableColumns (rs : List Json) : (tableColumns rs).Nodup :=
  nodup_foldl_insertKeys rs [] List.nodup_nil

theorem assocLookup_eq_none (k : String) :
    ∀ kvs : List (String × Json), k ∉ kvs.map Prod.fst → assocLookup k kvs = none := by
  intro kvs
  induction kvs with
  | nil => intro _; rfl
  | cons kv rest ih =>
    intro h
    have hne : kv.1 ≠ k := by
      intro he
      exact h (by simp [he])
    unfold assocLookup
    rw [if_neg hne]
    exact ih (fun hm => h (by simp [hm]))

/-- A key absent from a record gives an empty cell, never an error. -/
theorem cellOf_none (r : Json) (c : String) (h : c ∉ keysOf r) :
    cellOf r c = none := by
  cases r <;> try rfl
  case obj kvs => exact assocLookup_eq_none c kvs h

/-- C7: materializing a non-empty list of row dicts writes a table whose
columns are the union of all keys in first-seen order (each key once),
with one row per record whose cells are the record's values at the
columns — an absent key becoming an empty cell, not an error; the spec's
example evaluates as stated. -/
theorem save_structured_rows_table (records : List Json) (p : List Char)
    (hne : records ≠ []) (hobj : ∀ r ∈ records, isObjB r = true)
    (hcsv : excel_output p = false) :
    save_structured (Json.arr records) p
      = SaveOutcome.csv (tableColumns records)
          (records.map (rowOf (tableColumns records)))
    ∧ (records.map (rowOf (tableColumns records))).length = records.length
    ∧ (∀ c, c ∈ tableColumns records ↔ ∃ r ∈ records, c ∈ keysOf r)
    ∧ (tableColumns records).Nodup
    ∧ (∀ r ∈ records, ∀ c, c ∉ keysOf r → cellOf r c = none)
    ∧ dfOfRecords [Json.obj [("a", Json.num 1), ("b", Json.num 2)],
        Json.obj [("a", Json.num 3)]]
      = (["a", "b"],
         [[some (Json.num 1), some (Json.num 2)], [some (Json.num 3), none]]) := by
  refine ⟨?_, by simp, fun c => mem_tableColumns c records,
    nodup_tableColumns records, fun r _ c hc => cellOf_none r c hc, rfl⟩
  simp [save_structured, hcsv, dfOfRecords]

/-- C7 witness: the spec's record set, written to `output.csv`. -/
theorem save_structured_rows_table_witness :
    ([Json.obj [("a", Json.num 1), ("b", Json.num 2)],
      Json.obj [("a", Json.num 3)]] : List Json) ≠ []
    ∧ save_structured
        (Json.arr [Json.obj [("a", Json.num 1), ("b", Json.num 2)],
          Json.obj [("a", Json.num 3)]]) (String.toList "output.csv")
      = SaveOutcome.csv ["a", "b"]
          [[some (Json.num 1), some (Json.num 2)], [some (Json.num 3), none]] := by
  have h := save_structured_rows_table
    [Json.obj [("a", Json.num 1), ("b", Json.num 2)], Json.obj [("a", Json.num 3)]]
    (String.toList "output.csv") (by simp) (by decide) rfl
  exact ⟨by simp, h.1⟩

/-- C4 counterexample: with an empty record set the pipeline does not fail
with any error — `main` skips `save_structured` entirely and only prints
the zero-records warning. -/
theorem materialize_empty_counterexample :
    main_finish [] (String.toList "output.csv") = MainOutcome.warning
    ∧ MainOutcome.warning ≠ MainOutcome.done SaveOutcome.convError 0 :=
  ⟨rfl, fun h => MainOutcome.noConfusion h⟩

/-- C4 amended: an empty RecordSet is never materialized — `main` prints a
warning and persists nothing, raising no error; `save_structured` raises
its conversion error when the top-level value is neither a list nor a
dict; a non-empty RecordSet is always passed as a list. -/
theorem materialize_empty_amended (recs : List Json) (v : Json) (p : List Char)
    (hv : isScalarB v = true) :
    main_finish [] p = MainOutcome.warning
    ∧ save_structured v p = SaveOutcome.convError
    ∧ (recs ≠ [] → main_finish recs p
        = MainOutcome.done (save_structured (Json.arr recs) p) recs.length) := by
  refine ⟨rfl, ?_, ?_⟩
  · cases v <;> first | rfl | simp [isScalarB] at hv
  · intro h
    cases recs with
    | nil => exact absurd rfl h
    | cons a l => rfl

/-- C4 amended witness: the empty set warns, the scalar 7 raises the
conversion error, a one-record set is saved with count 1. -/
theorem materialize_empty_amended_witness :
    main_finish [] (String.toList "output.csv") = MainOutcome.warning
    ∧ save_structured (Json.num 7) (String.toList "output.csv") = SaveOutcome.convError
    ∧ main_finish [Json.obj []] (String.toList "output.csv")
      = MainOutcome.done
          (save_structured (Json.arr [Json.obj []]) (String.toList "output.csv")) 1 := by
  have h := materialize_empty_amended [Json.obj []] (Json.num 7)
    (String.toList "output.csv") rfl
  exact ⟨h.1, h.2.1, h.2.2 (by simp)⟩

/-- C10: extension dispatch lowercases the suffix at both ends of the
pipeline, so any letter-case variant of `.pdf`, `.docx`, `.doc` is
accepted by `extract_text` and any variant of `.xlsx`, `.xls` selects the
spreadsheet writer. -/
theorem extension_dispatch_case_insensitive (p q : List Char) :
    (str_lower (pySuffix p) = String.toList ".pdf" →
      extract_text_kind p = SourceKind.pdf)
    ∧ (str_lower (pySuffix p) = String.toList ".docx" →
      extract_text_kind p = SourceKind.docx)
    ∧ (str_lower (pySuffix p) = String.toList ".doc" →
      extract_text_kind p = SourceKind.doc)
    ∧ (str_lower (pySuffix q) = String.toList ".xlsx" → excel_output q = true)
    ∧ (str_lower (pySuffix q) = String.toList ".xls" → excel_output q = true) := by
  refine ⟨?_, ?_, ?_, ?_, ?_⟩ <;> intro h
  · unfold extract_text_kind; rw [h]; decide
  · unfold extract_text_kind; rw [h]; decide
  · unfold extract_text_kind; rw [h]; decide
  · unfold excel_output; rw [h]; decide
  · unfold excel_output; rw [h]; decide

/-- C10 witness: upper- and mixed-case extensions at both ends. -/
theorem extension_dispatch_case_insensitive_witness :
    extract_text_kind (String.toList "report.PDF") = SourceKind.pdf
    ∧ extract_text_kind (String.toList "notes.DocX") = SourceKind.docx
    ∧ extract_text_kind (String.toList "old.DOC") = SourceKind.doc
    ∧ excel_output (String.toList "out.XLSX") = true
    ∧ excel_output (String.toList "out.XLS") = true := by
  refine ⟨?_, ?_, ?_, ?_, ?_⟩
  · exact (extension_dispatch_case_insensitive
      (String.toList "report.PDF") (String.toList "out.XLSX")).1 (by decide)
  · exact (extension_dispatch_case_insensitive
      (String.toList "notes.DocX") (String.toList "out.XLS")).2.1 (by decide)
  · exact (extension_dispatch_case_insensitive
      (String.toList "old.DOC") (String.toList "out.XLSX")).2.2.1 (by decide)
  · exact (extension_dispatch_case_insensitive
      (String.toList "report.PDF") (String.toList "out.XLSX")).2.2.2.1 (by decide)
  · exact (extension_dispatch_case_insensitive
      (String.toList "old.DOC") (String.toList "out.XLS")).2.2.2.2 (by decide)
